import Mathlib

set_option maxHeartbeats 1600000
set_option maxRecDepth 100000

/-
Verification of the Cairo AIR core (src/proving_system/stark/src/air/example/cairo.rs)
against its natural-language specification.  The Rust code is shallowly embedded:
field elements become elements of an abstract commutative ring / field `F`
(the Stark-252 prime field is one instance), `Vec<FE>` becomes `List F`,
fallible indexing becomes `Option`, and the canonical integer representative
of a field element is an explicit parameter `rep : F → ℕ`.
-/

namespace Cairo

/-- Main constraint identifier INST from the source. -/
def INST : ℕ := 16

/-- Main constraint identifier DST_ADDR. -/
def DST_ADDR : ℕ := 17

/-- Main constraint identifier OP0_ADDR. -/
def OP0_ADDR : ℕ := 18

/-- Main constraint identifier OP1_ADDR. -/
def OP1_ADDR : ℕ := 19

/-- Main constraint identifier NEXT_AP. -/
def NEXT_AP : ℕ := 20

/-- Main constraint identifier NEXT_FP. -/
def NEXT_FP : ℕ := 21

/-- Main constraint identifier NEXT_PC_1. -/
def NEXT_PC_1 : ℕ := 22

/-- Main constraint identifier NEXT_PC_2. -/
def NEXT_PC_2 : ℕ := 23

/-- Main constraint identifier T0. -/
def T0 : ℕ := 24

/-- Main constraint identifier T1. -/
def T1 : ℕ := 25

/-- Main constraint identifier MUL_1. -/
def MUL_1 : ℕ := 26

/-- Main constraint identifier MUL_2. -/
def MUL_2 : ℕ := 27

/-- Main constraint identifier CALL_1. -/
def CALL_1 : ℕ := 28

/-- Main constraint identifier CALL_2. -/
def CALL_2 : ℕ := 29

/-- Main constraint identifier ASSERT_EQ from the source. -/
def ASSERT_EQ : ℕ := 30

/-- Auxiliary constraint identifier MEMORY_INCREASING_0. -/
def MEMORY_INCREASING_0 : ℕ := 31

/-- Auxiliary constraint identifier MEMORY_INCREASING_1. -/
def MEMORY_INCREASING_1 : ℕ := 32

/-- Auxiliary constraint identifier MEMORY_INCREASING_2. -/
def MEMORY_INCREASING_2 : ℕ := 33

/-- Auxiliary constraint identifier MEMORY_INCREASING_3. -/
def MEMORY_INCREASING_3 : ℕ := 34

/-- Auxiliary constraint identifier MEMORY_CONSISTENCY_0. -/
def MEMORY_CONSISTENCY_0 : ℕ := 35

/-- Auxiliary constraint identifier MEMORY_CONSISTENCY_1. -/
def MEMORY_CONSISTENCY_1 : ℕ := 36

/-- Auxiliary constraint identifier MEMORY_CONSISTENCY_2. -/
def MEMORY_CONSISTENCY_2 : ℕ := 37

/-- Auxiliary constraint identifier MEMORY_CONSISTENCY_3. -/
def MEMORY_CONSISTENCY_3 : ℕ := 38

/-- Auxiliary constraint identifier PERMUTATION_ARGUMENT_0. -/
def PERMUTATION_ARGUMENT_0 : ℕ := 39

/-- Auxiliary constraint identifier PERMUTATION_ARGUMENT_1. -/
def PERMUTATION_ARGUMENT_1 : ℕ := 40

/-- Auxiliary constraint identifier PERMUTATION_ARGUMENT_2. -/
def PERMUTATION_ARGUMENT_2 : ℕ := 41

/-- Auxiliary constraint identifier PERMUTATION_ARGUMENT_3. -/
def PERMUTATION_ARGUMENT_3 : ℕ := 42

/-- Frame row identifier F_DST_FP. -/
def F_DST_FP : ℕ := 0

/-- Frame row identifier F_OP_0_FP. -/
def F_OP_0_FP : ℕ := 1

/-- Frame row identifier F_OP_1_VAL. -/
def F_OP_1_VAL : ℕ := 2

/-- Frame row identifier F_OP_1_FP. -/
def F_OP_1_FP : ℕ := 3

/-- Frame row identifier F_OP_1_AP. -/
def F_OP_1_AP : ℕ := 4

/-- Frame row identifier F_RES_ADD. -/
def F_RES_ADD : ℕ := 5

/-- Frame row identifier F_RES_MUL. -/
def F_RES_MUL : ℕ := 6

/-- Frame row identifier F_PC_ABS. -/
def F_PC_ABS : ℕ := 7

/-- Frame row identifier F_PC_REL. -/
def F_PC_REL : ℕ := 8

/-- Frame row identifier F_PC_JNZ. -/
def F_PC_JNZ : ℕ := 9

/-- Frame row identifier F_AP_ADD. -/
def F_AP_ADD : ℕ := 10

/-- Frame row identifier F_AP_ONE. -/
def F_AP_ONE : ℕ := 11

/-- Frame row identifier F_OPC_CALL. -/
def F_OPC_CALL : ℕ := 12

/-- Frame row identifier F_OPC_RET. -/
def F_OPC_RET : ℕ := 13

/-- Frame row identifier F_OPC_AEQ. -/
def F_OPC_AEQ : ℕ := 14

/-- Frame row identifier FRAME_RES. -/
def FRAME_RES : ℕ := 16

/-- Frame row identifier FRAME_AP. -/
def FRAME_AP : ℕ := 17

/-- Frame row identifier FRAME_FP. -/
def FRAME_FP : ℕ := 18

/-- Frame row identifier FRAME_PC. -/
def FRAME_PC : ℕ := 19

/-- Frame row identifier FRAME_DST_ADDR. -/
def FRAME_DST_ADDR : ℕ := 20

/-- Frame row identifier FRAME_OP0_ADDR. -/
def FRAME_OP0_ADDR : ℕ := 21

/-- Frame row identifier FRAME_OP1_ADDR. -/
def FRAME_OP1_ADDR : ℕ := 22

/-- Frame row identifier FRAME_INST. -/
def FRAME_INST : ℕ := 23

/-- Frame row identifier FRAME_DST. -/
def FRAME_DST : ℕ := 24

/-- Frame row identifier FRAME_OP0. -/
def FRAME_OP0 : ℕ := 25

/-- Frame row identifier FRAME_OP1. -/
def FRAME_OP1 : ℕ := 26

/-- Frame row identifier OFF_DST. -/
def OFF_DST : ℕ := 27

/-- Frame row identifier OFF_OP0. -/
def OFF_OP0 : ℕ := 28

/-- Frame row identifier OFF_OP1. -/
def OFF_OP1 : ℕ := 29

/-- Frame row identifier FRAME_T0. -/
def FRAME_T0 : ℕ := 30

/-- Frame row identifier FRAME_T1. -/
def FRAME_T1 : ℕ := 31

/-- Frame row identifier FRAME_MUL. -/
def FRAME_MUL : ℕ := 32

/-- Frame row identifier FRAME_SELECTOR. -/
def FRAME_SELECTOR : ℕ := 33

/-- Auxiliary column identifier MEMORY_ADDR_SORTED_0. -/
def MEMORY_ADDR_SORTED_0 : ℕ := 34

/-- Auxiliary column identifier MEMORY_ADDR_SORTED_1. -/
def MEMORY_ADDR_SORTED_1 : ℕ := 35

/-- Auxiliary column identifier MEMORY_ADDR_SORTED_2. -/
def MEMORY_ADDR_SORTED_2 : ℕ := 36

/-- Auxiliary column identifier MEMORY_ADDR_SORTED_3. -/
def MEMORY_ADDR_SORTED_3 : ℕ := 37

/-- Auxiliary column identifier MEMORY_VALUES_SORTED_0. -/
def MEMORY_VALUES_SORTED_0 : ℕ := 38

/-- Auxiliary column identifier MEMORY_VALUES_SORTED_1. -/
def MEMORY_VALUES_SORTED_1 : ℕ := 39

/-- Auxiliary column identifier MEMORY_VALUES_SORTED_2. -/
def MEMORY_VALUES_SORTED_2 : ℕ := 40

/-- Auxiliary column identifier MEMORY_VALUES_SORTED_3. -/
def MEMORY_VALUES_SORTED_3 : ℕ := 41

/-- Auxiliary column identifier PERMUTATION_ARGUMENT_COL_0. -/
def PERMUTATION_ARGUMENT_COL_0 : ℕ := 42

/-- Auxiliary column identifier PERMUTATION_ARGUMENT_COL_1. -/
def PERMUTATION_ARGUMENT_COL_1 : ℕ := 43

/-- Auxiliary column identifier PERMUTATION_ARGUMENT_COL_2. -/
def PERMUTATION_ARGUMENT_COL_2 : ℕ := 44

/-- Auxiliary column identifier PERMUTATION_ARGUMENT_COL_3. -/
def PERMUTATION_ARGUMENT_COL_3 : ℕ := 45

/-- Trace layout constant MEM_P_TRACE_OFFSET. -/
def MEM_P_TRACE_OFFSET : ℕ := 17

/-- Trace layout constant MEM_A_TRACE_OFFSET. -/
def MEM_A_TRACE_OFFSET : ℕ := 19

/-- Public inputs of the Cairo AIR, mirroring struct PublicInputs in the source. -/
structure PublicInputs (F : Type) where
  pc_init : F
  ap_init : F
  fp_init : F
  pc_final : F
  ap_final : F
  program : List F
  num_steps : ℕ
  last_row_range_checks : Option ℕ

/-- Proof options record, mirroring ProofOptions (opaque to all claims). -/
structure ProofOptions where
  blowup_factor : ℕ
  fri_number_of_queries : ℕ
  coset_offset : ℕ

/-- AIR context record, mirroring struct AirContext in the source. -/
structure AirContext where
  options : ProofOptions
  trace_length : ℕ
  trace_columns : ℕ
  transition_degrees : List ℕ
  transition_exemptions : List ℕ
  transition_offsets : List ℕ
  num_transition_constraints : ℕ

/-- Cairo AIR instance, mirroring struct CairoAIR in the source. -/
structure CairoAIR where
  context : AirContext
  number_steps : ℕ

/-- RAP challenges alpha and z, mirroring struct CairoRAPChallenges. -/
structure CairoRAPChallenges (F : Type) where
  alpha : F
  z : F

/-- While loop of CairoAIR::new: starting from p, double until p is at least L.
The source starts the loop at p = 1; the p = 0 guard only makes the recursion
well-founded and is never reached from the source's entry point. -/
def powTwoLoop (L : ℕ) (p : ℕ) : ℕ :=
  if p = 0 then 0
  else if p < L then powTwoLoop L (2 * p)
  else p
termination_by L - p
decreasing_by
  rename_i h0 h1
  omega

/-- Constructor CairoAIR::new from the source: trace_length is the first power
of two reached by doubling from 1 that is at least
number_steps + (program_size >> 2) + 1. -/
def CairoAIR.new (proof_options : ProofOptions) (program_size : ℕ) (number_steps : ℕ) :
    CairoAIR :=
  let trace_length := number_steps + (program_size >>> 2) + 1
  let power_of_two := powTwoLoop trace_length 1
  { context :=
      { options := proof_options
        trace_length := power_of_two
        trace_columns := 34 + 12
        transition_degrees :=
          [2, 2, 2, 2, 2, 2, 2, 2, 2, 2, 2, 2, 2, 2, 2,
           1,
           2, 2, 2, 2, 2, 2, 2, 2, 2, 2, 2, 2, 2, 2, 2,
           2, 2, 2, 2,
           2, 2, 2, 2,
           2, 2, 2, 2]
        transition_exemptions :=
          [1, 1, 1, 1, 1, 1, 1, 1, 1, 1, 1, 1, 1, 1, 1, 1, 1, 1, 1, 1, 1, 1, 1, 1, 1, 1, 1, 1,
           1, 1, 1, 0, 0, 0, 1, 0, 0, 0, 1, 0, 0, 0, 1]
        transition_offsets := [0, 1]
        num_transition_constraints := 43 }
    number_steps := number_steps }

/-- Trace table: row-major flat store of field elements with a column count.
Modelled from the spec: the TraceTable type itself lives outside src/ (external
collaborator per the spec); the spec describes it as a rectangular row-major
matrix supporting column-subset extraction. -/
structure TraceTable (F : Type) where
  table : List F
  n_cols : ℕ

/-- Number of rows of a trace table. -/
def TraceTable.n_rows {F : Type} (t : TraceTable F) : ℕ :=
  t.table.length / t.n_cols

/-- Modelled from the spec: TraceTable::get_cols (outside src/) extracts a column
subset as a long vector concatenated by row, that is for each row in order, the
chosen columns of that row in the order given. -/
def TraceTable.get_cols {F : Type} [Zero F] (t : TraceTable F) (indices : List ℕ) :
    TraceTable F :=
  { table :=
      (List.range t.n_rows).flatMap
        (fun r => indices.map (fun c => t.table.getD (r * t.n_cols + c) 0))
    n_cols := indices.length }

/-- Function add_program_in_public_input_section from the source: replace the
final |program| entries of the address column with 1, 2, …, |program| and of the
value column with the program words.  The splice start index
addresses.len() - program.len() uses truncated subtraction; the source's usize
subtraction is only meaningful when |program| ≤ |addresses|, which is the regime
of every claim. -/
def add_program_in_public_input_section {F : Type} [CommRing F]
    (addresses : List F) (values : List F) (public_input : PublicInputs F) :
    List F × List F :=
  let public_input_section := addresses.length - public_input.program.length
  let continous_memory : List F :=
    (List.range' 1 public_input.program.length).map (fun i => (i : ℕ))
  (addresses.take public_input_section ++ continous_memory,
   values.take public_input_section ++ public_input.program)

/-- Function sort_columns_by_memory_address from the source: zip the two columns,
stable-sort the pairs by the canonical integer representative of the address and
unzip again.  Rust's Vec::sort_by is a stable sort; it is embedded as insertion
sort, which is extensionally the unique stable sorting function. -/
def sort_columns_by_memory_address {F : Type} (rep : F → ℕ)
    (adresses : List F) (values : List F) : List F × List F :=
  let tuples := adresses.zip values
  let sorted := tuples.insertionSort (fun x y => rep x.1 ≤ rep y.1)
  sorted.unzip

/-- Ratio (z - (a + alpha v)) / (z - (ap + alpha vp)), the closure f of
generate_permutation_argument_column. -/
def permf {F : Type} [Field F] (rap_challenges : CairoRAPChallenges F)
    (a v ap vp : F) : F :=
  (rap_challenges.z - (a + rap_challenges.alpha * v)) /
    (rap_challenges.z - (ap + rap_challenges.alpha * vp))

/-- Function generate_permutation_argument_column from the source.  The Rust code
unconditionally indexes entry 0 of all four streams before its loop and entry i
inside the loop; out-of-bounds indexing panics, embedded here as Option. -/
def generate_permutation_argument_column {F : Type} [Field F]
    (addresses_original : List F) (values_original : List F)
    (addresses_sorted : List F) (values_sorted : List F)
    (rap_challenges : CairoRAPChallenges F) : Option (List F) := do
  let a0 ← addresses_original[0]?
  let v0 ← values_original[0]?
  let ap0 ← addresses_sorted[0]?
  let vp0 ← values_sorted[0]?
  (List.range' 1 (addresses_sorted.length - 1)).foldlM
    (fun permutation_col i => do
      let last ← permutation_col.getLast?
      let a ← addresses_original[i]?
      let v ← values_original[i]?
      let ap ← addresses_sorted[i]?
      let vp ← values_sorted[i]?
      pure (permutation_col ++ [last * permf rap_challenges a v ap vp]))
    [permf rap_challenges a0 v0 ap0 vp0]

/-- Closed form of the running product built by
generate_permutation_argument_column: the product of the first k ratios. -/
def permProdUpTo {F : Type} [Field F] (ao vo asorted vsorted : List F)
    (rap_challenges : CairoRAPChallenges F) (k : ℕ) : F :=
  ((List.range k).map
    (fun j => permf rap_challenges (ao.getD j 0) (vo.getD j 0)
      (asorted.getD j 0) (vsorted.getD j 0))).prod

/-- Small prime used to instantiate the abstract field in concrete witnesses. -/
instance : Fact (Nat.Prime 11) := ⟨by norm_num⟩

/-- Function pad_with_zeros from the source: extend the row-major table with
n_cols * number_rows zero entries. -/
def pad_with_zeros {F : Type} [CommRing F] (trace : TraceTable F)
    (number_rows : ℕ) : TraceTable F :=
  { trace with table := trace.table ++ List.replicate (trace.n_cols * number_rows) 0 }

/-- Method CairoAIR::build_main_trace.  The VM execution-trace builder
build_cairo_execution_trace lives outside src/ (external collaborator per the
spec); its output is therefore taken as the argument exec_trace.  The method
pads it with (|program| >> 2) + 1 rows of zeros. -/
def build_main_trace {F : Type} [CommRing F] (exec_trace : TraceTable F)
    (public_input : PublicInputs F) : TraceTable F :=
  pad_with_zeros exec_trace ((public_input.program.length >>> 2) + 1)

/-- Method CairoAIR::build_auxiliary_trace: extract the address and value
streams, splice in the program, sort, build the permutation column, and re-stripe
the three 4-wide streams into rows of 12.  The repacking loop steps i by 4 up to
the stream length; the streams produced by get_cols on four columns always have
length a multiple of 4, so the in-bounds indexing of the source is embedded with
getD. -/
def build_auxiliary_trace {F : Type} [Field F] (rep : F → ℕ)
    (main_trace : TraceTable F) (rap_challenges : CairoRAPChallenges F)
    (public_input : PublicInputs F) : Option (TraceTable F) :=
  let addresses_original :=
    (main_trace.get_cols [FRAME_PC, FRAME_DST_ADDR, FRAME_OP0_ADDR, FRAME_OP1_ADDR]).table
  let values_original :=
    (main_trace.get_cols [FRAME_INST, FRAME_DST, FRAME_OP0, FRAME_OP1]).table
  let spliced :=
    add_program_in_public_input_section addresses_original values_original public_input
  let sorted := sort_columns_by_memory_address rep spliced.1 spliced.2
  let addresses := sorted.1
  let values := sorted.2
  (generate_permutation_argument_column addresses_original values_original
      addresses values rap_challenges).map
    (fun permutation_col =>
      { table :=
          (List.range (addresses.length / 4)).flatMap
            (fun i =>
              [addresses.getD (4 * i) 0, addresses.getD (4 * i + 1) 0,
               addresses.getD (4 * i + 2) 0, addresses.getD (4 * i + 3) 0,
               values.getD (4 * i) 0, values.getD (4 * i + 1) 0,
               values.getD (4 * i + 2) 0, values.getD (4 * i + 3) 0,
               permutation_col.getD (4 * i) 0, permutation_col.getD (4 * i + 1) 0,
               permutation_col.getD (4 * i + 2) 0, permutation_col.getD (4 * i + 3) 0])
        n_cols := 12 })

/-- Boundary constraint record, mirroring BoundaryConstraint::new(col, step, value). -/
structure BoundaryConstraint (F : Type) where
  col : ℕ
  step : ℕ
  value : F

/-- Collection of boundary constraints, mirroring
BoundaryConstraints::from_constraints. -/
structure BoundaryConstraints (F : Type) where
  constraints : List (BoundaryConstraint F)

/-- Method CairoAIR::boundary_constraints from the source: the five pinned
cells, the last being the permutation argument terminal value
z^|program| / prod over the enumerated program of (z - ((i+1) + alpha * value)). -/
def CairoAIR.boundary_constraints {F : Type} [Field F] (air : CairoAIR)
    (rap_challenges : CairoRAPChallenges F) (public_input : PublicInputs F) :
    BoundaryConstraints F :=
  let initial_pc : BoundaryConstraint F :=
    ⟨MEM_A_TRACE_OFFSET, 0, public_input.pc_init⟩
  let initial_ap : BoundaryConstraint F :=
    ⟨MEM_P_TRACE_OFFSET, 0, public_input.ap_init⟩
  let final_pc : BoundaryConstraint F :=
    ⟨MEM_A_TRACE_OFFSET, air.number_steps - 1, public_input.pc_final⟩
  let final_ap : BoundaryConstraint F :=
    ⟨MEM_P_TRACE_OFFSET, air.number_steps - 1, public_input.ap_final⟩
  let final_index := air.context.trace_length - 1
  let cumulative_product :=
    public_input.program.enum.foldl
      (fun acc iv => acc * (rap_challenges.z - (((iv.1 + 1 : ℕ) : F) + rap_challenges.alpha * iv.2)))
      1
  let permutation_final :=
    rap_challenges.z ^ public_input.program.length / cumulative_product
  let permutation_final_constraint : BoundaryConstraint F :=
    ⟨PERMUTATION_ARGUMENT_COL_3, final_index, permutation_final⟩
  ⟨[initial_pc, initial_ap, final_pc, final_ap, permutation_final_constraint]⟩

/-- Function fill_offsets_missing_values from the source: extract the chosen
columns as one long vector, bias by 2^15, sort the integer representatives,
walk adjacent sorted pairs filling gaps, append the missing ranges back onto the
column vector, pad to a multiple of three with zeros on the right, and prepend
the same number of zeros to the new column.  The source reads index 0 of the
sorted representatives unconditionally; it is embedded with getD, which agrees
with the source whenever the trace is non-empty. -/
def fill_offsets_missing_values {F : Type} [CommRing F] (rep : F → ℕ)
    (trace : TraceTable F) (columns_indices : List ℕ) : List F × List F :=
  let offset_columns := (trace.get_cols columns_indices).table
  let b : F := (2 : F) ^ (15 : ℕ)
  let offset_columns := offset_columns.map (fun x => x + b)
  let sorted_offset_representatives :=
    (offset_columns.map (fun x => rep x)).insertionSort (fun x y => x ≤ y)
  let new_column : List F := [((sorted_offset_representatives.getD 0 0 : ℕ) : F)]
  let walked :=
    (sorted_offset_representatives.zip sorted_offset_representatives.tail).foldl
      (fun st w =>
        if w.2 - w.1 = 0 then (st.1 ++ [((w.2 : ℕ) : F)], st.2)
        else
          let missing_range : List F :=
            (List.range' (w.1 + 1) (w.2 - (w.1 + 1))).map (fun x => ((x : ℕ) : F))
          (st.1 ++ missing_range ++ [((w.2 : ℕ) : F)], st.2 ++ [missing_range]))
      (new_column, ([] : List (List F)))
  let new_column := walked.1
  let missing_ranges := walked.2
  let offset_columns := offset_columns ++ missing_ranges.flatten
  let multiple_of_three_padding :=
    ((new_column.length + 2) / 3) * 3 - new_column.length
  let offset_columns := offset_columns ++ List.replicate multiple_of_three_padding (0 : F)
  let new_column_padded :=
    List.replicate multiple_of_three_padding (0 : F) ++ new_column
  (offset_columns, new_column_padded)

/-- Order of the Stark-252 prime field used by the source
(fields::fft_friendly::stark_252_prime_field::Stark252PrimeField). -/
def STARK_PRIME : ℕ := 2 ^ 251 + 17 * 2 ^ 192 + 1

/-- Concrete field element type FE of the source, as integers modulo the
Stark-252 prime. -/
abbrev FE : Type := ZMod STARK_PRIME

/-- Canonical integer representative of a Stark-252 field element. -/
def FE.representative (x : FE) : ℕ := ZMod.val x

/-- Evaluation frame: two consecutive trace rows.  A row is a total assignment
of field elements to column indices. -/
structure Frame (F : Type) where
  row0 : ℕ → F
  row1 : ℕ → F

/-- Frame::get_row: row 0 is the current row, any other index the next row
(the source only ever uses indices 0 and 1). -/
def Frame.get_row {F : Type} (frame : Frame F) (i : ℕ) : ℕ → F :=
  if i = 0 then frame.row0 else frame.row1

/-- Function frame_inst_size from the source. -/
def frame_inst_size {F : Type} [CommRing F] (frame_row : ℕ → F) : F :=
  frame_row F_OP_1_VAL + 1

/-- Function compute_instr_constraints from the source: the sixteen flag-bit
constraints written by the enumerate loop (the match arm for i = 15 keeps the
flag itself; arms beyond 15 are unreachable in the loop) followed by the
instruction unpacking constraint at index INST. -/
def compute_instr_constraints {F : Type} [CommRing F]
    (constraints : List F) (frame : Frame F) : List F :=
  let curr := frame.get_row 0
  let constraints :=
    (List.range 16).foldl
      (fun cs i => cs.set i (if i ≤ 14 then curr i * (curr i - 1) else curr i))
      constraints
  let two : F := 2
  let b16 := two ^ (16 : ℕ)
  let b32 := two ^ (32 : ℕ)
  let b48 := two ^ (48 : ℕ)
  let f0_squiggle :=
    (((List.range 15).map curr).reverse).foldl (fun acc flag => flag + two * acc) 0
  constraints.set INST
    (curr OFF_DST + b16 * curr OFF_OP0 + b32 * curr OFF_OP1 + b48 * f0_squiggle
      - curr FRAME_INST)

/-- Function compute_operand_constraints from the source. -/
def compute_operand_constraints {F : Type} [CommRing F]
    (constraints : List F) (frame : Frame F) : List F :=
  let curr := frame.get_row 0
  let ap := curr FRAME_AP
  let fp := curr FRAME_FP
  let pc := curr FRAME_PC
  let one : F := 1
  let b15 : F := (2 : F) ^ (15 : ℕ)
  let constraints := constraints.set DST_ADDR
    (curr F_DST_FP * fp + (one - curr F_DST_FP) * ap + (curr OFF_DST - b15)
      - curr FRAME_DST_ADDR)
  let constraints := constraints.set OP0_ADDR
    (curr F_OP_0_FP * fp + (one - curr F_OP_0_FP) * ap + (curr OFF_OP0 - b15)
      - curr FRAME_OP0_ADDR)
  constraints.set OP1_ADDR
    (curr F_OP_1_VAL * pc + curr F_OP_1_AP * ap + curr F_OP_1_FP * fp
      + (one - curr F_OP_1_VAL - curr F_OP_1_AP - curr F_OP_1_FP) * curr FRAME_OP0
      + (curr OFF_OP1 - b15) - curr FRAME_OP1_ADDR)

/-- Function compute_register_constraints from the source. -/
def compute_register_constraints {F : Type} [CommRing F]
    (constraints : List F) (frame : Frame F) : List F :=
  let curr := frame.get_row 0
  let next := frame.get_row 1
  let one : F := 1
  let two : F := 2
  let constraints := constraints.set NEXT_AP
    (curr FRAME_AP + curr F_AP_ADD * curr FRAME_RES + curr F_AP_ONE
      + curr F_OPC_CALL * two - next FRAME_AP)
  let constraints := constraints.set NEXT_FP
    (curr F_OPC_RET * curr FRAME_DST + curr F_OPC_CALL * (curr FRAME_AP + two)
      + (one - curr F_OPC_RET - curr F_OPC_CALL) * curr FRAME_FP - next FRAME_FP)
  let constraints := constraints.set NEXT_PC_1
    ((curr FRAME_T1 - curr F_PC_JNZ)
      * (next FRAME_PC - (curr FRAME_PC + frame_inst_size curr)))
  let constraints := constraints.set NEXT_PC_2
    (curr FRAME_T0 * (next FRAME_PC - (curr FRAME_PC + curr FRAME_OP1))
      + (one - curr F_PC_JNZ) * next FRAME_PC
      - ((one - curr F_PC_ABS - curr F_PC_REL - curr F_PC_JNZ)
          * (curr FRAME_PC + frame_inst_size curr)
        + curr F_PC_ABS * curr FRAME_RES
        + curr F_PC_REL * (curr FRAME_PC + curr FRAME_RES)))
  let constraints := constraints.set T0
    (curr F_PC_JNZ * curr FRAME_DST - curr FRAME_T0)
  constraints.set T1 (curr FRAME_T0 * curr FRAME_RES - curr FRAME_T1)

/-- Function compute_opcode_constraints from the source. -/
def compute_opcode_constraints {F : Type} [CommRing F]
    (constraints : List F) (frame : Frame F) : List F :=
  let curr := frame.get_row 0
  let one : F := 1
  let constraints := constraints.set MUL_1
    (curr FRAME_MUL - curr FRAME_OP0 * curr FRAME_OP1)
  let constraints := constraints.set MUL_2
    (curr F_RES_ADD * (curr FRAME_OP0 + curr FRAME_OP1)
      + curr F_RES_MUL * curr FRAME_MUL
      + (one - curr F_RES_ADD - curr F_RES_MUL - curr F_PC_JNZ) * curr FRAME_OP1
      - (one - curr F_PC_JNZ) * curr FRAME_RES)
  let constraints := constraints.set CALL_1
    (curr F_OPC_CALL * (curr FRAME_DST - curr FRAME_FP))
  let constraints := constraints.set CALL_2
    (curr F_OPC_CALL * (curr FRAME_OP0 - (curr FRAME_PC + frame_inst_size curr)))
  constraints.set ASSERT_EQ (curr F_OPC_AEQ * (curr FRAME_DST - curr FRAME_RES))

/-- Function enforce_selector from the source: multiply each constraint with
index in INST..=ASSERT_EQ (16 through 30) in place by the selector column of the
current row. -/
def enforce_selector {F : Type} [CommRing F]
    (constraints : List F) (frame : Frame F) : List F :=
  let curr := frame.get_row 0
  (List.range' INST (ASSERT_EQ + 1 - INST)).foldl
    (fun cs i => cs.set i (cs.getD i 0 * curr FRAME_SELECTOR))
    constraints

/-- Function memory_is_increasing from the source. -/
def memory_is_increasing {F : Type} [CommRing F]
    (constraints : List F) (frame : Frame F) : List F :=
  let curr := frame.get_row 0
  let next := frame.get_row 1
  let one : F := 1
  let constraints := constraints.set MEMORY_INCREASING_0
    ((curr MEMORY_ADDR_SORTED_0 - curr MEMORY_ADDR_SORTED_1)
      * (curr MEMORY_ADDR_SORTED_1 - curr MEMORY_ADDR_SORTED_0 - one))
  let constraints := constraints.set MEMORY_INCREASING_1
    ((curr MEMORY_ADDR_SORTED_1 - curr MEMORY_ADDR_SORTED_2)
      * (curr MEMORY_ADDR_SORTED_2 - curr MEMORY_ADDR_SORTED_1 - one))
  let constraints := constraints.set MEMORY_INCREASING_2
    ((curr MEMORY_ADDR_SORTED_2 - curr MEMORY_ADDR_SORTED_3)
      * (curr MEMORY_ADDR_SORTED_3 - curr MEMORY_ADDR_SORTED_2 - one))
  let constraints := constraints.set MEMORY_INCREASING_3
    ((curr MEMORY_ADDR_SORTED_3 - next MEMORY_ADDR_SORTED_0)
      * (next MEMORY_ADDR_SORTED_0 - curr MEMORY_ADDR_SORTED_3 - one))
  let constraints := constraints.set MEMORY_CONSISTENCY_0
    ((curr MEMORY_VALUES_SORTED_0 - curr MEMORY_VALUES_SORTED_1)
      * (curr MEMORY_ADDR_SORTED_1 - curr MEMORY_ADDR_SORTED_0 - one))
  let constraints := constraints.set MEMORY_CONSISTENCY_1
    ((curr MEMORY_VALUES_SORTED_1 - curr MEMORY_VALUES_SORTED_2)
      * (curr MEMORY_ADDR_SORTED_2 - curr MEMORY_ADDR_SORTED_1 - one))
  let constraints := constraints.set MEMORY_CONSISTENCY_2
    ((curr MEMORY_VALUES_SORTED_2 - curr MEMORY_VALUES_SORTED_3)
      * (curr MEMORY_ADDR_SORTED_3 - curr MEMORY_ADDR_SORTED_2 - one))
  constraints.set MEMORY_CONSISTENCY_3
    ((curr MEMORY_VALUES_SORTED_3 - next MEMORY_VALUES_SORTED_0)
      * (next MEMORY_ADDR_SORTED_0 - curr MEMORY_ADDR_SORTED_3 - one))

/-- Function permutation_argument from the source. -/
def permutation_argument {F : Type} [CommRing F]
    (constraints : List F) (frame : Frame F)
    (rap_challenges : CairoRAPChallenges F) : List F :=
  let curr := frame.get_row 0
  let next := frame.get_row 1
  let z := rap_challenges.z
  let alpha := rap_challenges.alpha
  let p0 := curr PERMUTATION_ARGUMENT_COL_0
  let p0_next := next PERMUTATION_ARGUMENT_COL_0
  let p1 := curr PERMUTATION_ARGUMENT_COL_1
  let p2 := curr PERMUTATION_ARGUMENT_COL_2
  let p3 := curr PERMUTATION_ARGUMENT_COL_3
  let ap0_next := next MEMORY_ADDR_SORTED_0
  let ap1 := curr MEMORY_ADDR_SORTED_1
  let ap2 := curr MEMORY_ADDR_SORTED_2
  let ap3 := curr MEMORY_ADDR_SORTED_3
  let vp0_next := next MEMORY_VALUES_SORTED_0
  let vp1 := curr MEMORY_VALUES_SORTED_1
  let vp2 := curr MEMORY_VALUES_SORTED_2
  let vp3 := curr MEMORY_VALUES_SORTED_3
  let a0_next := next FRAME_PC
  let a1 := curr FRAME_DST_ADDR
  let a2 := curr FRAME_OP0_ADDR
  let a3 := curr FRAME_OP1_ADDR
  let v0_next := next FRAME_INST
  let v1 := curr FRAME_DST
  let v2 := curr FRAME_OP0
  let v3 := curr FRAME_OP1
  let constraints := constraints.set PERMUTATION_ARGUMENT_0
    ((z - (ap1 + alpha * vp1)) * p1 - (z - (a1 + alpha * v1)) * p0)
  let constraints := constraints.set PERMUTATION_ARGUMENT_1
    ((z - (ap2 + alpha * vp2)) * p2 - (z - (a2 + alpha * v2)) * p1)
  let constraints := constraints.set PERMUTATION_ARGUMENT_2
    ((z - (ap3 + alpha * vp3)) * p3 - (z - (a3 + alpha * v3)) * p2)
  constraints.set PERMUTATION_ARGUMENT_3
    ((z - (ap0_next + alpha * vp0_next)) * p0_next - (z - (a0_next + alpha * v0_next)) * p3)

/-- Method CairoAIR::compute_transition from the source: start from a zero
vector of num_transition_constraints entries and apply the seven constraint
writers in order. -/
def compute_transition {F : Type} [CommRing F] (air : CairoAIR) (frame : Frame F)
    (rap_challenges : CairoRAPChallenges F) : List F :=
  let constraints : List F := List.replicate air.context.num_transition_constraints 0
  let constraints := compute_instr_constraints constraints frame
  let constraints := compute_operand_constraints constraints frame
  let constraints := compute_register_constraints constraints frame
  let constraints := compute_opcode_constraints constraints frame
  let constraints := enforce_selector constraints frame
  let constraints := memory_is_increasing constraints frame
  permutation_argument constraints frame rap_challenges

theorem powTwoLoop_ge (L p : ℕ) (hp : p ≠ 0) : L ≤ powTwoLoop L p := by
  induction p using powTwoLoop.induct L with
  | case1 => exact absurd rfl hp
  | case2 x hx hlt ih =>
    rw [powTwoLoop.eq_def]
    simp only [if_neg hx, if_pos hlt]
    exact ih (by omega)
  | case3 x hx hge =>
    rw [powTwoLoop.eq_def]
    simp only [if_neg hx, if_neg hge]
    omega

theorem powTwoLoop_pow (L p : ℕ) (k : ℕ) (hp : p = 2 ^ k) :
    ∃ j, k ≤ j ∧ powTwoLoop L p = 2 ^ j := by
  induction p using powTwoLoop.induct L generalizing k with
  | case1 =>
    exfalso
    have h := Nat.pos_pow_of_pos k (by norm_num : 0 < 2)
    omega
  | case2 x hx hlt ih =>
    rw [powTwoLoop.eq_def, if_neg hx, if_pos hlt]
    obtain ⟨j, hj, hj2⟩ := ih (k + 1) (by rw [hp]; ring)
    exact ⟨j, by omega, hj2⟩
  | case3 x hx hge =>
    rw [powTwoLoop.eq_def, if_neg hx, if_neg hge]
    exact ⟨k, le_refl k, hp⟩

theorem powTwoLoop_min (L p : ℕ) (k : ℕ) (hp : p = 2 ^ k) (m : ℕ) (j : ℕ)
    (hm : m = 2 ^ j) (h1 : L ≤ m) (h2 : p ≤ m) : powTwoLoop L p ≤ m := by
  induction p using powTwoLoop.induct L generalizing k with
  | case1 =>
    exfalso
    have h := Nat.pos_pow_of_pos k (by norm_num : 0 < 2)
    omega
  | case2 x hx hlt ih =>
    rw [powTwoLoop.eq_def, if_neg hx, if_pos hlt]
    refine ih (k + 1) (by rw [hp]; ring) ?_
    have hkj : k < j := by
      by_contra hc
      push_neg at hc
      have hle : 2 ^ j ≤ 2 ^ k := Nat.pow_le_pow_right (by norm_num) hc
      omega
    have hle : 2 ^ (k + 1) ≤ 2 ^ j := Nat.pow_le_pow_right (by norm_num) hkj
    rw [hp]
    omega
  | case3 x hx hge =>
    rw [powTwoLoop.eq_def, if_neg hx, if_neg hge]
    exact h2

theorem new_trace_length_eq (opts : ProofOptions) (ps ns : ℕ) :
    (CairoAIR.new opts ps ns).context.trace_length = powTwoLoop (ns + ps / 4 + 1) 1 := by
  have hs : ps >>> 2 = ps / 4 := by
    rw [Nat.shiftRight_eq_div_pow]
  simp [CairoAIR.new, hs]

/-- Claim C2, counterexample: at program_size = 5, number_steps = 2 the code
produces trace_length = 4, which is strictly below
number_steps + ceil(program_size / 4) + 1 = 5, so it is not the smallest power
of two at or above that quantity (which is 8). -/
theorem C2_counterexample :
    (CairoAIR.new ⟨2, 1, 3⟩ 5 2).context.trace_length = 4 ∧
      (CairoAIR.new ⟨2, 1, 3⟩ 5 2).context.trace_length < 2 + (5 + 3) / 4 + 1 := by
  have h4 : (2 + 5 / 4 + 1 : ℕ) = 4 := by norm_num
  have h : (CairoAIR.new ⟨2, 1, 3⟩ 5 2).context.trace_length = 4 := by
    rw [new_trace_length_eq, h4]
    simp [powTwoLoop]
  exact ⟨h, by omega⟩

/-- Claim C2 (amended: the floor of program_size / 4, as computed by
program_size >> 2, replaces the claimed ceiling): CairoAIR::new sets
context.trace_length to the smallest power of two greater than or equal to
number_steps + floor(program_size / 4) + 1, and in particular trace_length is a
power of two strictly greater than number_steps. -/
theorem C2_trace_length (opts : ProofOptions) (ps ns : ℕ) :
    (∃ k, (CairoAIR.new opts ps ns).context.trace_length = 2 ^ k) ∧
      ns + ps / 4 + 1 ≤ (CairoAIR.new opts ps ns).context.trace_length ∧
      (∀ m j, m = 2 ^ j → ns + ps / 4 + 1 ≤ m →
        (CairoAIR.new opts ps ns).context.trace_length ≤ m) ∧
      ns < (CairoAIR.new opts ps ns).context.trace_length := by
  rw [new_trace_length_eq]
  refine ⟨?_, ?_, ?_, ?_⟩
  · obtain ⟨j, _, hj⟩ := powTwoLoop_pow (ns + ps / 4 + 1) 1 0 (by norm_num)
    exact ⟨j, hj⟩
  · exact powTwoLoop_ge _ 1 one_ne_zero
  · intro m j hm h1
    refine powTwoLoop_min _ 1 0 (by norm_num) m j hm h1 ?_
    have h := Nat.pos_pow_of_pos j (by norm_num : 0 < 2)
    omega
  · have h := powTwoLoop_ge (ns + ps / 4 + 1) 1 one_ne_zero
    omega

/-- Witness for C2_trace_length at a concrete input. -/
theorem C2_witness :
    2 + 5 / 4 + 1 ≤ (CairoAIR.new ⟨2, 1, 3⟩ 5 2).context.trace_length ∧
      (CairoAIR.new ⟨2, 1, 3⟩ 5 2).context.trace_length ≤ 8 :=
  ⟨(C2_trace_length ⟨2, 1, 3⟩ 5 2).2.1,
   (C2_trace_length ⟨2, 1, 3⟩ 5 2).2.2.1 8 3 (by norm_num) (by norm_num)⟩

theorem getD_append_left_of_lt {α : Type} (l1 l2 : List α) (i : ℕ) (d : α)
    (h : i < l1.length) : (l1 ++ l2).getD i d = l1.getD i d := by
  rw [List.getD_eq_getElem?_getD, List.getD_eq_getElem?_getD,
    List.getElem?_append_left h]

theorem getD_replicate_zero {α : Type} (k i : ℕ) (z : α) :
    (List.replicate k z).getD i z = z := by
  rw [List.getD_eq_getElem?_getD, List.getElem?_replicate]
  split <;> simp

/-- Claim C3, counterexample: with a program of 5 words the code appends
(5 >> 2) + 1 = 2 rows, not ceil(5 / 4) + 1 = 3 rows as claimed. -/
theorem C3_counterexample :
    (build_main_trace (⟨[], 34⟩ : TraceTable FE)
        ⟨0, 0, 0, 0, 0, [0, 0, 0, 0, 0], 1, none⟩).n_rows =
      (⟨[], 34⟩ : TraceTable FE).n_rows + 2 ∧ (2 : ℕ) ≠ (5 + 3) / 4 + 1 := by
  constructor
  · rfl
  · decide

/-- Claim C3 (amended: the number of appended rows is
floor(program_size / 4) + 1, as computed by program_size >> 2, not the claimed
ceiling): build_main_trace appends exactly floor(|program| / 4) + 1 rows to the
trace produced by the external execution-trace builder, keeps every original
entry, and every entry of each appended row is 0 (including FRAME_SELECTOR). -/
theorem C3_build_main_trace {F : Type} [CommRing F] (exec_trace : TraceTable F)
    (public_input : PublicInputs F) (h : 0 < exec_trace.n_cols) :
    (build_main_trace exec_trace public_input).n_cols = exec_trace.n_cols ∧
      (build_main_trace exec_trace public_input).n_rows =
        exec_trace.n_rows + (public_input.program.length / 4 + 1) ∧
      (∀ i < exec_trace.table.length,
        (build_main_trace exec_trace public_input).table.getD i 0 =
          exec_trace.table.getD i 0) ∧
      (∀ i, exec_trace.table.length ≤ i →
        (build_main_trace exec_trace public_input).table.getD i 0 = 0) := by
  have hs : public_input.program.length >>> 2 = public_input.program.length / 4 := by
    rw [Nat.shiftRight_eq_div_pow]
  refine ⟨rfl, ?_, ?_, ?_⟩
  · show (exec_trace.table ++
        List.replicate (exec_trace.n_cols * (public_input.program.length >>> 2 + 1)) 0).length /
        exec_trace.n_cols = _
    rw [List.length_append, List.length_replicate, Nat.add_mul_div_left _ _ h, hs]
    rfl
  · intro i hi
    exact getD_append_left_of_lt _ _ i 0 hi
  · intro i hi
    show (exec_trace.table ++
        List.replicate (exec_trace.n_cols * (public_input.program.length >>> 2 + 1))
          (0 : F)).getD i 0 = 0
    rw [List.getD_eq_getElem?_getD, List.getElem?_append_right hi,
      List.getElem?_replicate]
    split <;> simp

/-- Witness for C3_build_main_trace at a concrete input. -/
theorem C3_witness :
    (build_main_trace (⟨[(7 : FE)], 1⟩ : TraceTable FE)
        ⟨0, 0, 0, 0, 0, [0, 0, 0, 0, 0], 1, none⟩).n_rows =
      (⟨[(7 : FE)], 1⟩ : TraceTable FE).n_rows + (5 / 4 + 1) ∧
      (build_main_trace (⟨[(7 : FE)], 1⟩ : TraceTable FE)
          ⟨0, 0, 0, 0, 0, [0, 0, 0, 0, 0], 1, none⟩).table.getD 0 0 = (7 : FE) :=
  ⟨(C3_build_main_trace _ _ (by decide)).2.1,
   (C3_build_main_trace (⟨[(7 : FE)], 1⟩ : TraceTable FE)
       ⟨0, 0, 0, 0, 0, [0, 0, 0, 0, 0], 1, none⟩ (by decide)).2.2.1 0 (by decide)⟩

theorem add_program_length_fst {F : Type} [CommRing F] (a v : List F)
    (pub : PublicInputs F) (hP : pub.program.length ≤ a.length) :
    (add_program_in_public_input_section a v pub).1.length = a.length := by
  simp [add_program_in_public_input_section]
  omega

theorem add_program_length_snd {F : Type} [CommRing F] (a v : List F)
    (pub : PublicInputs F) (hlen : a.length = v.length)
    (hP : pub.program.length ≤ a.length) :
    (add_program_in_public_input_section a v pub).2.length = v.length := by
  simp [add_program_in_public_input_section]
  omega

/-- Claim C8: for equal-length address and value vectors with
P = |program| ≤ their length, add_program_in_public_input_section keeps the
lengths, leaves every entry before position length − P unchanged, makes the
final P address entries the ascending sequence 1, …, P, and makes the final P
value entries the program words. -/
theorem C8_add_program {F : Type} [CommRing F] (a v : List F)
    (pub : PublicInputs F) (hlen : a.length = v.length)
    (hP : pub.program.length ≤ a.length) :
    (add_program_in_public_input_section a v pub).1.length = a.length ∧
      (add_program_in_public_input_section a v pub).2.length = v.length ∧
      (∀ i < a.length - pub.program.length,
        (add_program_in_public_input_section a v pub).1.getD i 0 = a.getD i 0 ∧
          (add_program_in_public_input_section a v pub).2.getD i 0 = v.getD i 0) ∧
      (∀ j < pub.program.length,
        (add_program_in_public_input_section a v pub).1.getD
            (a.length - pub.program.length + j) 0 = ((j + 1 : ℕ) : F) ∧
          (add_program_in_public_input_section a v pub).2.getD
            (a.length - pub.program.length + j) 0 = pub.program.getD j 0) := by
  refine ⟨add_program_length_fst a v pub hP, add_program_length_snd a v pub hlen hP,
    ?_, ?_⟩
  · intro i hi
    constructor
    · show ((a.take (a.length - pub.program.length) ++ _).getD i 0 : F) = _
      rw [getD_append_left_of_lt _ _ i 0 (by rw [List.length_take]; omega),
        List.getD_eq_getElem?_getD, List.getD_eq_getElem?_getD,
        List.getElem?_take, if_pos hi]
    · show ((v.take (a.length - pub.program.length) ++ _).getD i 0 : F) = _
      rw [getD_append_left_of_lt _ _ i 0 (by rw [List.length_take]; omega),
        List.getD_eq_getElem?_getD, List.getD_eq_getElem?_getD,
        List.getElem?_take, if_pos hi]
  · intro j hj
    have hqa : (a.take (a.length - pub.program.length)).length =
        a.length - pub.program.length := by rw [List.length_take]; omega
    have hqv : (v.take (a.length - pub.program.length)).length =
        a.length - pub.program.length := by rw [List.length_take]; omega
    constructor
    · show ((a.take (a.length - pub.program.length) ++
          (List.range' 1 pub.program.length).map (fun i => ((i : ℕ) : F))).getD
            (a.length - pub.program.length + j) 0 : F) = _
      rw [List.getD_eq_getElem?_getD, List.getElem?_append_right (by omega), hqa]
      have hidx : a.length - pub.program.length + j -
          (a.length - pub.program.length) = j := by omega
      rw [hidx, List.getElem?_map, List.getElem?_range' 1 1 hj]
      show ((1 + 1 * j : ℕ) : F) = _
      norm_num [Nat.add_comm]
    · show ((v.take (a.length - pub.program.length) ++ pub.program).getD
          (a.length - pub.program.length + j) 0 : F) = _
      rw [List.getD_eq_getElem?_getD, List.getElem?_append_right (by omega), hqv]
      have hidx : a.length - pub.program.length + j -
          (a.length - pub.program.length) = j := by omega
      rw [hidx, List.getD_eq_getElem?_getD]

/-- Witness for C8_add_program: the spec's concrete scenario
a = v = [1,1,0,0,0,0], program = [10,20,30], checked at position 3 of the
public-input section and with the expected full outputs. -/
theorem C8_witness :
    (add_program_in_public_input_section
        ([1, 1, 0, 0, 0, 0] : List FE) ([1, 1, 0, 0, 0, 0] : List FE)
        ⟨0, 0, 0, 0, 0, [10, 20, 30], 1, none⟩).1.getD (3 + 0) 0 = ((0 + 1 : ℕ) : FE) ∧
      add_program_in_public_input_section
          ([1, 1, 0, 0, 0, 0] : List FE) ([1, 1, 0, 0, 0, 0] : List FE)
          ⟨0, 0, 0, 0, 0, [10, 20, 30], 1, none⟩ =
        ([1, 1, 0, 1, 2, 3], [1, 1, 0, 10, 20, 30]) :=
  ⟨((C8_add_program ([1, 1, 0, 0, 0, 0] : List FE) ([1, 1, 0, 0, 0, 0] : List FE)
      ⟨0, 0, 0, 0, 0, [10, 20, 30], 1, none⟩ (by decide) (by decide)).2.2.2 0
      (by decide)).1,
   by decide⟩

theorem getD_set_ne {α : Type} (l : List α) (j i : ℕ) (x d : α) (h : j ≠ i) :
    (l.set j x).getD i d = l.getD i d := by
  rw [List.getD_eq_getElem?_getD, List.getD_eq_getElem?_getD, List.getElem?_set_ne h]

theorem getD_set_self_of_lt {α : Type} (l : List α) (i : ℕ) (x d : α)
    (h : i < l.length) : (l.set i x).getD i d = x := by
  rw [List.getD_eq_getElem?_getD, List.getElem?_set_self h]
  rfl

theorem foldl_set_mul_getD_zero {F : Type} [CommRing F] (sel : F) (hsel : sel = 0) :
    ∀ (idxs : List ℕ) (cs : List F) (i : ℕ), i < cs.length →
      (i ∈ idxs ∨ cs.getD i 0 = 0) →
      (idxs.foldl (fun cs2 j => cs2.set j (cs2.getD j 0 * sel)) cs).getD i 0 = 0 := by
  subst hsel
  intro idxs
  induction idxs with
  | nil =>
    intro cs i _ hmem
    rcases hmem with hmem | hz
    · cases hmem
    · simpa using hz
  | cons j rest ih =>
    intro cs i hlen hmem
    show (rest.foldl _ (cs.set j (cs.getD j 0 * 0))).getD i 0 = 0
    rw [mul_zero]
    refine ih (cs.set j 0) i (by rw [List.length_set]; exact hlen) ?_
    rcases hmem with hmem | hz
    · rcases List.mem_cons.mp hmem with rfl | hrest
      · right
        exact getD_set_self_of_lt cs i 0 0 hlen
      · left
        exact hrest
    · by_cases hij : j = i
      · subst hij
        right
        exact getD_set_self_of_lt cs j 0 0 hlen
      · right
        rw [getD_set_ne cs j i 0 0 hij]
        exact hz

theorem memory_is_increasing_getD_low {F : Type} [CommRing F] (cs : List F)
    (frame : Frame F) (i : ℕ) (h : i < 31) :
    (memory_is_increasing cs frame).getD i 0 = cs.getD i 0 := by
  have h31 : MEMORY_INCREASING_0 ≠ i := by simp only [MEMORY_INCREASING_0]; omega
  have h32 : MEMORY_INCREASING_1 ≠ i := by simp only [MEMORY_INCREASING_1]; omega
  have h33 : MEMORY_INCREASING_2 ≠ i := by simp only [MEMORY_INCREASING_2]; omega
  have h34 : MEMORY_INCREASING_3 ≠ i := by simp only [MEMORY_INCREASING_3]; omega
  have h35 : MEMORY_CONSISTENCY_0 ≠ i := by simp only [MEMORY_CONSISTENCY_0]; omega
  have h36 : MEMORY_CONSISTENCY_1 ≠ i := by simp only [MEMORY_CONSISTENCY_1]; omega
  have h37 : MEMORY_CONSISTENCY_2 ≠ i := by simp only [MEMORY_CONSISTENCY_2]; omega
  have h38 : MEMORY_CONSISTENCY_3 ≠ i := by simp only [MEMORY_CONSISTENCY_3]; omega
  simp only [memory_is_increasing]
  rw [getD_set_ne _ _ _ _ _ h38, getD_set_ne _ _ _ _ _ h37, getD_set_ne _ _ _ _ _ h36,
    getD_set_ne _ _ _ _ _ h35, getD_set_ne _ _ _ _ _ h34, getD_set_ne _ _ _ _ _ h33,
    getD_set_ne _ _ _ _ _ h32, getD_set_ne _ _ _ _ _ h31]

theorem permutation_argument_getD_low {F : Type} [CommRing F] (cs : List F)
    (frame : Frame F) (ch : CairoRAPChallenges F) (i : ℕ) (h : i < 39) :
    (permutation_argument cs frame ch).getD i 0 = cs.getD i 0 := by
  have h39 : PERMUTATION_ARGUMENT_0 ≠ i := by simp only [PERMUTATION_ARGUMENT_0]; omega
  have h40 : PERMUTATION_ARGUMENT_1 ≠ i := by simp only [PERMUTATION_ARGUMENT_1]; omega
  have h41 : PERMUTATION_ARGUMENT_2 ≠ i := by simp only [PERMUTATION_ARGUMENT_2]; omega
  have h42 : PERMUTATION_ARGUMENT_3 ≠ i := by simp only [PERMUTATION_ARGUMENT_3]; omega
  simp only [permutation_argument]
  rw [getD_set_ne _ _ _ _ _ h42, getD_set_ne _ _ _ _ _ h41, getD_set_ne _ _ _ _ _ h40,
    getD_set_ne _ _ _ _ _ h39]

theorem compute_instr_constraints_length {F : Type} [CommRing F] (cs : List F)
    (frame : Frame F) : (compute_instr_constraints cs frame).length = cs.length := by
  simp only [compute_instr_constraints]
  rw [List.length_set]
  have hr : List.range 16 = [0, 1, 2, 3, 4, 5, 6, 7, 8, 9, 10, 11, 12, 13, 14, 15] := rfl
  rw [hr]
  simp only [List.foldl_cons, List.foldl_nil, List.length_set]

theorem compute_operand_constraints_length {F : Type} [CommRing F] (cs : List F)
    (frame : Frame F) : (compute_operand_constraints cs frame).length = cs.length := by
  simp only [compute_operand_constraints, List.length_set]

theorem compute_register_constraints_length {F : Type} [CommRing F] (cs : List F)
    (frame : Frame F) : (compute_register_constraints cs frame).length = cs.length := by
  simp only [compute_register_constraints, List.length_set]

theorem compute_opcode_constraints_length {F : Type} [CommRing F] (cs : List F)
    (frame : Frame F) : (compute_opcode_constraints cs frame).length = cs.length := by
  simp only [compute_opcode_constraints, List.length_set]

theorem getElem?_eq_some_getD {α : Type} (l : List α) (i : ℕ) (d : α)
    (h : i < l.length) : l[i]? = some (l.getD i d) := by
  rw [List.getD_eq_getElem?_getD, List.getElem?_eq_getElem h]
  rfl

theorem permProdUpTo_succ {F : Type} [Field F] (ao vo asorted vsorted : List F)
    (ch : CairoRAPChallenges F) (i : ℕ) :
    permProdUpTo ao vo asorted vsorted ch (i + 1) =
      permProdUpTo ao vo asorted vsorted ch i *
        permf ch (ao.getD i 0) (vo.getD i 0) (asorted.getD i 0) (vsorted.getD i 0) := by
  simp only [permProdUpTo, List.range_succ, List.map_append, List.prod_append,
    List.map_cons, List.map_nil, List.prod_cons, List.prod_nil, mul_one]

theorem permProdUpTo_one {F : Type} [Field F] (ao vo asorted vsorted : List F)
    (ch : CairoRAPChallenges F) :
    permProdUpTo ao vo asorted vsorted ch 1 =
      permf ch (ao.getD 0 0) (vo.getD 0 0) (asorted.getD 0 0) (vsorted.getD 0 0) := by
  have hr : List.range 1 = [0] := rfl
  rw [permProdUpTo, hr]
  simp

theorem foldlM_step_closed {F : Type} (f : List F → ℕ → Option (List F)) (G : ℕ → F) :
    ∀ (k s : ℕ) (col : List F),
      (∀ col2 i, s ≤ i → i < s + k → col2.getLast? = some (G i) →
        f col2 i = some (col2 ++ [G (i + 1)])) →
      col.getLast? = some (G s) →
      (List.range' s k).foldlM f col =
        some (col ++ (List.range' s k).map (fun i => G (i + 1))) := by
  intro k
  induction k with
  | zero =>
    intro s col _ _
    simp
  | succ k ih =>
    intro s col hf hlast
    rw [List.range'_succ, List.foldlM_cons, hf col s (le_refl s) (by omega) hlast]
    show (List.range' (s + 1) k).foldlM f (col ++ [G (s + 1)]) = _
    rw [ih (s + 1) (col ++ [G (s + 1)])
      (fun col2 i hi1 hi2 hl => hf col2 i (by omega) (by omega) hl)
      (List.getLast?_concat col)]
    rw [List.map_cons, List.append_assoc]
    rfl

theorem generate_eq_some {F : Type} [Field F] (ao vo asorted vsorted : List F)
    (ch : CairoRAPChallenges F)
    (h0 : 0 < asorted.length) (h1 : asorted.length ≤ ao.length)
    (h2 : asorted.length ≤ vo.length) (h3 : asorted.length ≤ vsorted.length) :
    generate_permutation_argument_column ao vo asorted vsorted ch =
      some ((List.range' 0 asorted.length).map
        (fun i => permProdUpTo ao vo asorted vsorted ch (i + 1))) := by
  obtain ⟨m, hm⟩ : ∃ m, asorted.length = m + 1 := ⟨asorted.length - 1, by omega⟩
  have ha0 : ao[0]? = some (ao.getD 0 0) := getElem?_eq_some_getD ao 0 0 (by omega)
  have hv0 : vo[0]? = some (vo.getD 0 0) := getElem?_eq_some_getD vo 0 0 (by omega)
  have hap0 : asorted[0]? = some (asorted.getD 0 0) :=
    getElem?_eq_some_getD asorted 0 0 (by omega)
  have hvp0 : vsorted[0]? = some (vsorted.getD 0 0) :=
    getElem?_eq_some_getD vsorted 0 0 (by omega)
  simp only [generate_permutation_argument_column, ha0, hv0, hap0, hvp0,
    Option.bind_eq_bind, Option.some_bind, hm, Nat.add_sub_cancel]
  have hG1 : ([permf ch (ao.getD 0 0) (vo.getD 0 0) (asorted.getD 0 0)
      (vsorted.getD 0 0)] : List F).getLast? =
      some (permProdUpTo ao vo asorted vsorted ch 1) := by
    rw [permProdUpTo_one]
    rfl
  rw [foldlM_step_closed _ (permProdUpTo ao vo asorted vsorted ch) m 1 _ ?_ hG1]
  · have hsplit : List.range' 0 (m + 1) = 0 :: List.range' 1 m := by
      rw [List.range'_succ]
    rw [hsplit, List.map_cons, permProdUpTo_one]
    rfl
  · intro col2 i hi1 hi2 hl
    rw [hl, getElem?_eq_some_getD ao i 0 (by omega), getElem?_eq_some_getD vo i 0 (by omega),
      getElem?_eq_some_getD asorted i 0 (by omega),
      getElem?_eq_some_getD vsorted i 0 (by omega)]
    simp only [Option.bind_eq_bind, Option.some_bind]
    rw [permProdUpTo_succ]
    rfl

theorem get_cols_length {F : Type} [Zero F] (t : TraceTable F) (idxs : List ℕ) :
    (t.get_cols idxs).table.length = t.n_rows * idxs.length := by
  simp only [TraceTable.get_cols, List.length_flatMap]
  have h : List.map
      (List.length ∘ fun r => idxs.map (fun c => t.table.getD (r * t.n_cols + c) 0))
      (List.range t.n_rows) = List.replicate t.n_rows idxs.length := by
    rw [List.eq_replicate_iff]
    constructor
    · rw [List.length_map, List.length_range]
    · intro b hb
      obtain ⟨r, _, hrb⟩ := List.mem_map.mp hb
      rw [← hrb]
      simp
  rw [h, List.sum_replicate, smul_eq_mul]

theorem flatMap_length_const {α : Type} (g : ℕ → List α) (c : ℕ)
    (hg : ∀ i, (g i).length = c) :
    ∀ l : List ℕ, (l.flatMap g).length = c * l.length := by
  intro l
  induction l with
  | nil => simp
  | cons x xs ih =>
    rw [List.flatMap_cons, List.length_append, hg, ih, List.length_cons]
    ring

theorem flatMap_getD_block {α : Type} (g : ℕ → List α) (c : ℕ)
    (hg : ∀ i, (g i).length = c) (M r j : ℕ) (hr : r < M) (hj : j < c) (d : α) :
    ((List.range M).flatMap g).getD (c * r + j) d = (g r).getD j d := by
  obtain ⟨w, hw⟩ : ∃ w, M - r = w + 1 := ⟨M - r - 1, by omega⟩
  have hsplit : List.range M = List.range' 0 r ++ List.range' r (M - r) := by
    rw [List.range_eq_range']
    have h := List.range'_append 0 r (M - r) 1
    simp only [Nat.one_mul, Nat.zero_add] at h
    rw [h]
    congr 1
    omega
  have hfr : List.range' r (M - r) = r :: List.range' (r + 1) w := by
    rw [hw, List.range'_succ]
  rw [hsplit, List.flatMap_append, hfr, List.flatMap_cons]
  have hlen1 : ((List.range' 0 r).flatMap g).length = c * r := by
    rw [flatMap_length_const g c hg, List.length_range']
  rw [List.getD_eq_getElem?_getD, List.getElem?_append_right (by omega)]
  rw [hlen1]
  have hidx : c * r + j - c * r = j := by omega
  rw [hidx, List.getElem?_append_left (by rw [hg]; omega)]
  rw [List.getD_eq_getElem?_getD]

theorem map_zip_prod_eq {F : Type} [CommMonoid F] [Zero F] (h : F → F → F) :
    ∀ (l1 l2 : List F), l1.length = l2.length →
      ((l1.zip l2).map (fun p => h p.1 p.2)).prod =
        ∏ i ∈ Finset.range l1.length, h (l1.getD i 0) (l2.getD i 0) := by
  intro l1
  induction l1 with
  | nil =>
    intro l2 _
    simp
  | cons a l ih =>
    intro l2 hlen
    match l2 with
    | [] => simp at hlen
    | b :: l2t =>
      rw [List.zip_cons_cons, List.map_cons, List.prod_cons, List.length_cons,
        Finset.prod_range_succ']
      have hgd0 : (a :: l).getD 0 0 = a := rfl
      have hgd0b : (b :: l2t).getD 0 0 = b := rfl
      have hcongr : ∀ i ∈ Finset.range l.length,
          h ((a :: l).getD (i + 1) 0) ((b :: l2t).getD (i + 1) 0) =
            h (l.getD i 0) (l2t.getD i 0) := by
        intro i _
        rfl
      rw [Finset.prod_congr rfl hcongr, hgd0, hgd0b,
        ih l2t (by simpa using hlen)]
      exact mul_comm _ _

theorem range'_map_zip_prod {F : Type} [CommRing F] (z alpha : F) :
    ∀ (l : List F) (k : ℕ),
      ((((List.range' k l.length).map (fun i => ((i : ℕ) : F))).zip l).map
        (fun p => z - (p.1 + alpha * p.2))).prod =
        ∏ i ∈ Finset.range l.length, (z - (((k + i : ℕ) : F) + alpha * l.getD i 0)) := by
  intro l
  induction l with
  | nil =>
    intro k
    simp
  | cons a l ih =>
    intro k
    rw [List.length_cons, List.range'_succ, List.map_cons, List.zip_cons_cons,
      List.map_cons, List.prod_cons, Finset.prod_range_succ']
    have hcongr : ∀ i ∈ Finset.range l.length,
        (z - (((k + (i + 1) : ℕ) : F) + alpha * (a :: l).getD (i + 1) 0)) =
          (z - (((k + 1 + i : ℕ) : F) + alpha * l.getD i 0)) := by
      intro i _
      have hn : k + (i + 1) = k + 1 + i := by omega
      rw [hn]
      rfl
    rw [Finset.prod_congr rfl hcongr, ih (k + 1)]
    have h0 : ((k + 0 : ℕ) : F) = ((k : ℕ) : F) := by norm_num
    have hgd0 : (a :: l).getD 0 0 = a := rfl
    rw [h0, hgd0]
    exact mul_comm _ _

/-- Claim C1: for every main trace of N rows whose flattened 4N-entry address
and value streams end in P = |program| zero entries, and challenges for which
every denominator z − (a_sorted + alpha v_sorted) after splicing and sorting is
nonzero, build_auxiliary_trace succeeds and the entry it places in column
PERMUTATION_ARGUMENT_COL_3 of the last auxiliary row — the last entry p[4N−1]
of the permutation column — equals
z^P · (Π over i < P of (z − ((i+1) + alpha · program[i])))⁻¹, the value pinned
by the final boundary constraint. -/
theorem C1_permutation_terminal {F : Type} [Field F] (rep : F → ℕ)
    (mt : TraceTable F) (ch : CairoRAPChallenges F) (pub : PublicInputs F)
    (ao vo a v : List F)
    (hao : ao =
      (mt.get_cols [FRAME_PC, FRAME_DST_ADDR, FRAME_OP0_ADDR, FRAME_OP1_ADDR]).table)
    (hvo : vo = (mt.get_cols [FRAME_INST, FRAME_DST, FRAME_OP0, FRAME_OP1]).table)
    (hav : (a, v) = sort_columns_by_memory_address rep
        (add_program_in_public_input_section ao vo pub).1
        (add_program_in_public_input_section ao vo pub).2)
    (hrows : 0 < mt.n_rows)
    (hP : pub.program.length ≤ 4 * mt.n_rows)
    (hza : ∀ x ∈ ao.drop (4 * mt.n_rows - pub.program.length), x = 0)
    (hzv : ∀ x ∈ vo.drop (4 * mt.n_rows - pub.program.length), x = 0)
    (hden : ∀ q ∈ a.zip v, ch.z - (q.1 + ch.alpha * q.2) ≠ 0) :
    ∃ aux, build_auxiliary_trace rep mt ch pub = some aux ∧
      aux.table.getD (12 * (mt.n_rows - 1) + 11) 0 =
        ch.z ^ pub.program.length *
          (∏ i ∈ Finset.range pub.program.length,
            (ch.z - (((i + 1 : ℕ) : F) + ch.alpha * pub.program.getD i 0)))⁻¹ := by
  have hlao : ao.length = 4 * mt.n_rows := by
    rw [hao, get_cols_length]
    show mt.n_rows * 4 = 4 * mt.n_rows
    omega
  have hlvo : vo.length = 4 * mt.n_rows := by
    rw [hvo, get_cols_length]
    show mt.n_rows * 4 = 4 * mt.n_rows
    omega
  have hPao : pub.program.length ≤ ao.length := by omega
  have hla1 : (add_program_in_public_input_section ao vo pub).1.length =
      4 * mt.n_rows := by
    rw [add_program_length_fst ao vo pub hPao, hlao]
  have hlv1 : (add_program_in_public_input_section ao vo pub).2.length =
      4 * mt.n_rows := by
    rw [add_program_length_snd ao vo pub (by omega) hPao, hlvo]
  have ha : a = (((add_program_in_public_input_section ao vo pub).1.zip
      (add_program_in_public_input_section ao vo pub).2).insertionSort
        (fun x y => rep x.1 ≤ rep y.1)).unzip.1 := by
    have h := congrArg Prod.fst hav
    simpa [sort_columns_by_memory_address] using h
  have hv : v = (((add_program_in_public_input_section ao vo pub).1.zip
      (add_program_in_public_input_section ao vo pub).2).insertionSort
        (fun x y => rep x.1 ≤ rep y.1)).unzip.2 := by
    have h := congrArg Prod.snd hav
    simpa [sort_columns_by_memory_address] using h
  have hzipav : a.zip v = ((add_program_in_public_input_section ao vo pub).1.zip
      (add_program_in_public_input_section ao vo pub).2).insertionSort
        (fun x y => rep x.1 ≤ rep y.1) := by
    rw [ha, hv]
    exact List.zip_unzip _
  have hperm : List.Perm (((add_program_in_public_input_section ao vo pub).1.zip
      (add_program_in_public_input_section ao vo pub).2).insertionSort
        (fun x y => rep x.1 ≤ rep y.1))
      ((add_program_in_public_input_section ao vo pub).1.zip
        (add_program_in_public_input_section ao vo pub).2) :=
    List.perm_insertionSort _ _
  have hzl : ((add_program_in_public_input_section ao vo pub).1.zip
      (add_program_in_public_input_section ao vo pub).2).length = 4 * mt.n_rows := by
    rw [List.length_zip, hla1, hlv1]
    omega
  have hla : a.length = 4 * mt.n_rows := by
    rw [ha, List.unzip_eq_map]
    show (List.map Prod.fst _).length = _
    rw [List.length_map, hperm.length_eq, hzl]
  have hlv : v.length = 4 * mt.n_rows := by
    rw [hv, List.unzip_eq_map]
    show (List.map Prod.snd _).length = _
    rw [List.length_map, hperm.length_eq, hzl]
  simp only [build_auxiliary_trace]
  rw [← hao, ← hvo, ← hav]
  rw [generate_eq_some ao vo a v ch (by omega) (by omega) (by omega) (by omega)]
  simp only [Option.map_some]
  refine ⟨_, rfl, ?_⟩
  have hdiv : a.length / 4 = mt.n_rows := by
    rw [hla]
    omega
  rw [hdiv]
  rw [flatMap_getD_block
    (fun i =>
      [a.getD (4 * i) 0, a.getD (4 * i + 1) 0, a.getD (4 * i + 2) 0,
       a.getD (4 * i + 3) 0, v.getD (4 * i) 0, v.getD (4 * i + 1) 0,
       v.getD (4 * i + 2) 0, v.getD (4 * i + 3) 0,
       ((List.range' 0 a.length).map
         (fun j => permProdUpTo ao vo a v ch (j + 1))).getD (4 * i) 0,
       ((List.range' 0 a.length).map
         (fun j => permProdUpTo ao vo a v ch (j + 1))).getD (4 * i + 1) 0,
       ((List.range' 0 a.length).map
         (fun j => permProdUpTo ao vo a v ch (j + 1))).getD (4 * i + 2) 0,
       ((List.range' 0 a.length).map
         (fun j => permProdUpTo ao vo a v ch (j + 1))).getD (4 * i + 3) 0])
    12 (fun i => rfl) mt.n_rows (mt.n_rows - 1) 11 (by omega) (by omega) 0]
  show ((List.range' 0 a.length).map
      (fun i => permProdUpTo ao vo a v ch (i + 1))).getD (4 * (mt.n_rows - 1) + 3) 0 = _
  have hidx : 4 * (mt.n_rows - 1) + 3 = 4 * mt.n_rows - 1 := by omega
  rw [hidx, List.getD_eq_getElem?_getD, List.getElem?_map,
    List.getElem?_range' 0 1 (by rw [hla]; omega)]
  show permProdUpTo ao vo a v ch (0 + 1 * (4 * mt.n_rows - 1) + 1) = _
  have hidx2 : 0 + 1 * (4 * mt.n_rows - 1) + 1 = 4 * mt.n_rows := by omega
  rw [hidx2]
  have hgen : permProdUpTo ao vo a v ch (4 * mt.n_rows) =
      (∏ i ∈ Finset.range (4 * mt.n_rows),
        (ch.z - (ao.getD i 0 + ch.alpha * vo.getD i 0))) /
      (∏ i ∈ Finset.range (4 * mt.n_rows),
        (ch.z - (a.getD i 0 + ch.alpha * v.getD i 0))) := by
    have h1 : permProdUpTo ao vo a v ch (4 * mt.n_rows) =
        ∏ i ∈ Finset.range (4 * mt.n_rows),
          ((ch.z - (ao.getD i 0 + ch.alpha * vo.getD i 0)) /
            (ch.z - (a.getD i 0 + ch.alpha * v.getD i 0))) := rfl
    rw [h1, Finset.prod_div_distrib]
  have ha1 : (add_program_in_public_input_section ao vo pub).1 =
      ao.take (4 * mt.n_rows - pub.program.length) ++
        (List.range' 1 pub.program.length).map (fun i => ((i : ℕ) : F)) := by
    simp only [add_program_in_public_input_section]
    rw [hlao]
  have hv1 : (add_program_in_public_input_section ao vo pub).2 =
      vo.take (4 * mt.n_rows - pub.program.length) ++ pub.program := by
    simp only [add_program_in_public_input_section]
    rw [hlao]
  have htakelen : (ao.take (4 * mt.n_rows - pub.program.length)).length =
      (vo.take (4 * mt.n_rows - pub.program.length)).length := by
    rw [List.length_take, List.length_take, hlao, hlvo]
  have hzipsplit1 : (add_program_in_public_input_section ao vo pub).1.zip
      (add_program_in_public_input_section ao vo pub).2 =
      (ao.take (4 * mt.n_rows - pub.program.length)).zip
          (vo.take (4 * mt.n_rows - pub.program.length)) ++
        ((List.range' 1 pub.program.length).map (fun i => ((i : ℕ) : F))).zip
          pub.program := by
    rw [ha1, hv1, List.zip_append htakelen]
  have hzipsplit0 : ao.zip vo =
      (ao.take (4 * mt.n_rows - pub.program.length)).zip
          (vo.take (4 * mt.n_rows - pub.program.length)) ++
        (ao.drop (4 * mt.n_rows - pub.program.length)).zip
          (vo.drop (4 * mt.n_rows - pub.program.length)) := by
    conv_lhs => rw [← List.take_append_drop (4 * mt.n_rows - pub.program.length) ao,
      ← List.take_append_drop (4 * mt.n_rows - pub.program.length) vo]
    rw [List.zip_append htakelen]
  have hdropzip : (((ao.drop (4 * mt.n_rows - pub.program.length)).zip
      (vo.drop (4 * mt.n_rows - pub.program.length))).map
        (fun p => ch.z - (p.1 + ch.alpha * p.2))).prod =
      ch.z ^ pub.program.length := by
    have hall : ∀ x ∈ ((ao.drop (4 * mt.n_rows - pub.program.length)).zip
        (vo.drop (4 * mt.n_rows - pub.program.length))).map
          (fun p => ch.z - (p.1 + ch.alpha * p.2)), x = ch.z := by
      intro x hx
      obtain ⟨p, hpmem, hpx⟩ := List.mem_map.mp hx
      obtain ⟨hp1, hp2⟩ := List.of_mem_zip hpmem
      rw [← hpx, hza p.1 hp1, hzv p.2 hp2]
      ring
    rw [List.prod_eq_pow_card _ ch.z hall, List.length_map, List.length_zip,
      List.length_drop, List.length_drop, hlao, hlvo]
    congr 1
    omega
  have hnum : (∏ i ∈ Finset.range (4 * mt.n_rows),
      (ch.z - (ao.getD i 0 + ch.alpha * vo.getD i 0))) =
      (((ao.take (4 * mt.n_rows - pub.program.length)).zip
          (vo.take (4 * mt.n_rows - pub.program.length))).map
        (fun p => ch.z - (p.1 + ch.alpha * p.2))).prod * ch.z ^ pub.program.length := by
    have hmz : ((ao.zip vo).map (fun p => ch.z - (p.1 + ch.alpha * p.2))).prod =
        ∏ i ∈ Finset.range (4 * mt.n_rows),
          (ch.z - (ao.getD i 0 + ch.alpha * vo.getD i 0)) := by
      rw [← hlao]
      exact map_zip_prod_eq (fun x y => ch.z - (x + ch.alpha * y)) ao vo
        (by rw [hlao, hlvo])
    rw [← hmz, hzipsplit0, List.map_append, List.prod_append, hdropzip]
  have hprogzip : ((((List.range' 1 pub.program.length).map
      (fun i => ((i : ℕ) : F))).zip pub.program).map
        (fun p => ch.z - (p.1 + ch.alpha * p.2))).prod =
      ∏ i ∈ Finset.range pub.program.length,
        (ch.z - (((i + 1 : ℕ) : F) + ch.alpha * pub.program.getD i 0)) := by
    have h := range'_map_zip_prod ch.z ch.alpha pub.program 1
    rw [h]
    refine Finset.prod_congr rfl ?_
    intro i _
    congr 3
    omega
  have hdenom : (∏ i ∈ Finset.range (4 * mt.n_rows),
      (ch.z - (a.getD i 0 + ch.alpha * v.getD i 0))) =
      (((ao.take (4 * mt.n_rows - pub.program.length)).zip
          (vo.take (4 * mt.n_rows - pub.program.length))).map
        (fun p => ch.z - (p.1 + ch.alpha * p.2))).prod *
        (∏ i ∈ Finset.range pub.program.length,
          (ch.z - (((i + 1 : ℕ) : F) + ch.alpha * pub.program.getD i 0))) := by
    have hmz : ((a.zip v).map (fun p => ch.z - (p.1 + ch.alpha * p.2))).prod =
        ∏ i ∈ Finset.range (4 * mt.n_rows),
          (ch.z - (a.getD i 0 + ch.alpha * v.getD i 0)) := by
      rw [← hla]
      exact map_zip_prod_eq (fun x y => ch.z - (x + ch.alpha * y)) a v
        (by rw [hla, hlv])
    rw [← hmz, hzipav, (hperm.map _).prod_eq, hzipsplit1, List.map_append,
      List.prod_append, hprogzip]
  have hCne : (((ao.take (4 * mt.n_rows - pub.program.length)).zip
      (vo.take (4 * mt.n_rows - pub.program.length))).map
        (fun p => ch.z - (p.1 + ch.alpha * p.2))).prod ≠ 0 := by
    apply List.prod_ne_zero
    intro h0mem
    obtain ⟨p, hpmem, hp0⟩ := List.mem_map.mp h0mem
    have hpin : p ∈ (add_program_in_public_input_section ao vo pub).1.zip
        (add_program_in_public_input_section ao vo pub).2 := by
      rw [hzipsplit1]
      exact List.mem_append_left _ hpmem
    have hpin2 : p ∈ a.zip v := by
      rw [hzipav]
      exact hperm.mem_iff.mpr hpin
    exact hden p hpin2 hp0
  rw [hgen, hnum, hdenom, mul_div_mul_left _ _ hCne, div_eq_mul_inv]

/-- Witness for C1_permutation_terminal: a one-row all-zero main trace over the
field with 11 elements, program [2], alpha = 5, z = 3; every denominator is 3
and the terminal value is 3 * 3⁻¹. -/
theorem C1_witness :
    ∃ aux, build_auxiliary_trace (fun x : ZMod 11 => x.val)
        (⟨List.replicate 34 0, 34⟩ : TraceTable (ZMod 11))
        (⟨5, 3⟩ : CairoRAPChallenges (ZMod 11))
        (⟨0, 0, 0, 0, 0, [2], 1, none⟩ : PublicInputs (ZMod 11)) = some aux ∧
      aux.table.getD
          (12 * ((⟨List.replicate 34 0, 34⟩ : TraceTable (ZMod 11)).n_rows - 1) + 11)
          0 =
        (⟨5, 3⟩ : CairoRAPChallenges (ZMod 11)).z ^
            (⟨0, 0, 0, 0, 0, [2], 1, none⟩ :
              PublicInputs (ZMod 11)).program.length *
          (∏ i ∈ Finset.range
              (⟨0, 0, 0, 0, 0, [2], 1, none⟩ :
                PublicInputs (ZMod 11)).program.length,
            ((⟨5, 3⟩ : CairoRAPChallenges (ZMod 11)).z -
              (((i + 1 : ℕ) : ZMod 11) +
                (⟨5, 3⟩ : CairoRAPChallenges (ZMod 11)).alpha *
                  (⟨0, 0, 0, 0, 0, [2], 1, none⟩ :
                    PublicInputs (ZMod 11)).program.getD i 0)))⁻¹ :=
  C1_permutation_terminal (fun x : ZMod 11 => x.val)
    (⟨List.replicate 34 0, 34⟩ : TraceTable (ZMod 11))
    (⟨5, 3⟩ : CairoRAPChallenges (ZMod 11))
    (⟨0, 0, 0, 0, 0, [2], 1, none⟩ : PublicInputs (ZMod 11))
    [0, 0, 0, 0] [0, 0, 0, 0] [0, 0, 0, 1] [0, 0, 0, 2]
    (by decide) (by decide) (by decide) (by decide) (by decide) (by decide)
    (by decide) (by decide)

/-- Claim C10: generate_permutation_argument_column unconditionally reads
index 0 of its four input streams before its loop, so it is total exactly on
non-empty streams: whenever the sorted stream is non-empty and no longer than
the other three it returns some column, while on empty streams it returns
none, and build_auxiliary_trace on an empty main trace with an empty program
likewise fails. -/
theorem C10_generate_totality {F : Type} [Field F] (rep : F → ℕ)
    (ch : CairoRAPChallenges F) :
    (∀ ao vo asorted vsorted : List F,
      asorted.length ≤ ao.length → asorted.length ≤ vo.length →
      asorted.length ≤ vsorted.length → 0 < asorted.length →
      (generate_permutation_argument_column ao vo asorted vsorted ch).isSome = true) ∧
      generate_permutation_argument_column ([] : List F) [] [] [] ch = none ∧
      (∀ pub : PublicInputs F, pub.program = [] →
        build_auxiliary_trace rep (⟨[], 34⟩ : TraceTable F) ch pub = none) := by
  refine ⟨?_, rfl, ?_⟩
  · intro ao vo asorted vsorted h1 h2 h3 h0
    rw [generate_eq_some ao vo asorted vsorted ch h0 h1 h2 h3]
    rfl
  · intro pub hp
    obtain ⟨pc1, ap1, fp1, pc2, ap2, prog, nst, lrr⟩ := pub
    simp only at hp
    subst hp
    simp [build_auxiliary_trace, TraceTable.get_cols, TraceTable.n_rows,
      add_program_in_public_input_section, sort_columns_by_memory_address,
      generate_permutation_argument_column]

/-- Witness for C10_generate_totality: singleton streams over the field with
11 elements succeed. -/
theorem C10_witness :
    (generate_permutation_argument_column ([1] : List (ZMod 11)) [1] [1] [1]
      ⟨5, 3⟩).isSome = true :=
  (C10_generate_totality (fun x : ZMod 11 => x.val) ⟨5, 3⟩).1 [1] [1] [1] [1]
    (by decide) (by decide) (by decide) (by decide)

/-- Claim C6: for every frame whose current row has FRAME_SELECTOR equal to
zero, entries 16 through 30 of the 43-entry vector returned by
compute_transition are all zero, regardless of every other column of the
frame. -/
theorem C6_selector_gating {F : Type} [CommRing F] (opts : ProofOptions)
    (ps ns : ℕ) (frame : Frame F) (ch : CairoRAPChallenges F)
    (hsel : frame.get_row 0 FRAME_SELECTOR = 0) :
    ∀ i, 16 ≤ i → i ≤ 30 →
      (compute_transition (CairoAIR.new opts ps ns) frame ch).getD i 0 = 0 := by
  intro i h16 h30
  simp only [compute_transition]
  rw [permutation_argument_getD_low _ _ _ _ (by omega),
    memory_is_increasing_getD_low _ _ _ (by omega)]
  have hnum : (CairoAIR.new opts ps ns).context.num_transition_constraints = 43 := rfl
  rw [hnum]
  have hlen : (compute_opcode_constraints
      (compute_register_constraints
        (compute_operand_constraints
          (compute_instr_constraints (List.replicate 43 (0 : F)) frame) frame) frame)
      frame).length = 43 := by
    rw [compute_opcode_constraints_length, compute_register_constraints_length,
      compute_operand_constraints_length, compute_instr_constraints_length,
      List.length_replicate]
  simp only [enforce_selector]
  refine foldl_set_mul_getD_zero _ hsel _ _ i ?_ (Or.inl ?_)
  · rw [hlen]
    omega
  · show i ∈ List.range' INST (ASSERT_EQ + 1 - INST)
    have hR : ASSERT_EQ + 1 - INST = 15 := rfl
    have hI : INST = 16 := rfl
    rw [hR, hI, List.mem_range'_1]
    omega

/-- Witness for C6_selector_gating: the all-zero frame over the Stark-252
field, checked at constraint 20. -/
theorem C6_witness :
    (compute_transition (CairoAIR.new ⟨2, 1, 3⟩ 5 2)
        (⟨fun _ => (0 : FE), fun _ => 0⟩ : Frame FE)
        ⟨3, 5⟩).getD 20 0 = 0 :=
  C6_selector_gating ⟨2, 1, 3⟩ 5 2 ⟨fun _ => (0 : FE), fun _ => 0⟩ ⟨3, 5⟩ rfl 20
    (by omega) (by omega)

/-- Claim C7: for equal-length address and value vectors,
sort_columns_by_memory_address returns the same pairs reordered so that the
canonical integer representatives of the addresses are non-decreasing, the
multiset of output pairs equals the multiset of input pairs, and the sort is
stable: for every representative value the subsequence of pairs carrying it is
unchanged. -/
theorem C7_sort {F : Type} (rep : F → ℕ) (a v : List F)
    (hlen : a.length = v.length) :
    ((sort_columns_by_memory_address rep a v).1.zip
        (sort_columns_by_memory_address rep a v).2 : Multiset (F × F)) =
        (a.zip v : Multiset (F × F)) ∧
      List.Pairwise (fun x y => rep x ≤ rep y)
        (sort_columns_by_memory_address rep a v).1 ∧
      (∀ k : ℕ,
        ((sort_columns_by_memory_address rep a v).1.zip
            (sort_columns_by_memory_address rep a v).2).filter
          (fun p => rep p.1 = k) =
        (a.zip v).filter (fun p => rep p.1 = k)) := by
  have hzip : (sort_columns_by_memory_address rep a v).1.zip
      (sort_columns_by_memory_address rep a v).2 =
      (a.zip v).insertionSort (fun x y => rep x.1 ≤ rep y.1) := by
    show ((a.zip v).insertionSort (fun x y => rep x.1 ≤ rep y.1)).unzip.1.zip
        ((a.zip v).insertionSort (fun x y => rep x.1 ≤ rep y.1)).unzip.2 = _
    exact List.zip_unzip _
  have hperm : List.Perm ((a.zip v).insertionSort (fun x y => rep x.1 ≤ rep y.1))
      (a.zip v) :=
    List.perm_insertionSort _ _
  refine ⟨?_, ?_, ?_⟩
  · rw [hzip]
    exact Multiset.coe_eq_coe.mpr hperm
  · haveI : IsTotal (F × F) (fun x y => rep x.1 ≤ rep y.1) :=
      ⟨fun x y => Nat.le_total (rep x.1) (rep y.1)⟩
    haveI : IsTrans (F × F) (fun x y => rep x.1 ≤ rep y.1) :=
      ⟨fun x y z hxy hyz => Nat.le_trans hxy hyz⟩
    have hsorted := List.sorted_insertionSort (fun x y => rep x.1 ≤ rep y.1) (a.zip v)
    show List.Pairwise _ ((a.zip v).insertionSort (fun x y => rep x.1 ≤ rep y.1)).unzip.1
    rw [List.unzip_eq_map]
    rw [List.pairwise_map]
    exact hsorted
  · intro k
    rw [hzip]
    set p : F × F → Bool := fun q => decide (rep q.1 = k) with hp
    set c := (a.zip v).filter p with hc
    have hcpair : c.Pairwise (fun x y => rep x.1 ≤ rep y.1) := by
      refine List.pairwise_of_forall_mem_list ?_
      intro x hx y hy
      have hxk : rep x.1 = k := by
        have h := List.of_mem_filter hx
        rw [hp] at h
        exact of_decide_eq_true h
      have hyk : rep y.1 = k := by
        have h := List.of_mem_filter hy
        rw [hp] at h
        exact of_decide_eq_true h
      omega
    have hcsub : c.Sublist (a.zip v) := List.filter_sublist _
    have hstable := List.sublist_insertionSort hcpair hcsub
    have hcp : c.filter p = c := by
      rw [List.filter_eq_self]
      intro x hx
      exact List.of_mem_filter hx
    have hsubf : c.Sublist
        (((a.zip v).insertionSort (fun x y => rep x.1 ≤ rep y.1)).filter p) := by
      have h := List.Sublist.filter p hstable
      rwa [hcp] at h
    have hlenf : (((a.zip v).insertionSort (fun x y => rep x.1 ≤ rep y.1)).filter p).length
        = c.length := by
      rw [hc]
      exact (hperm.filter p).length_eq
    exact (hsubf.eq_of_length hlenf.symm).symm

/-- Witness for C7_sort: the spec's concrete scenario a = [2,1,3,2],
v = [6,4,5,6] over the Stark-252 field, together with the expected sorted
output. -/
theorem C7_witness :
    List.Pairwise (fun x y => FE.representative x ≤ FE.representative y)
        (sort_columns_by_memory_address FE.representative
          ([2, 1, 3, 2] : List FE) ([6, 4, 5, 6] : List FE)).1 ∧
      sort_columns_by_memory_address FE.representative
          ([2, 1, 3, 2] : List FE) ([6, 4, 5, 6] : List FE) =
        ([1, 2, 2, 3], [4, 6, 6, 5]) :=
  ⟨(C7_sort FE.representative ([2, 1, 3, 2] : List FE) ([6, 4, 5, 6] : List FE)
      (by decide)).2.1,
   by decide⟩

/-- Claim C9: on a trace whose three designated offset columns each have
length 3 with values all 1, all 4 and all 7, fill_offsets_missing_values
returns the nine biased originals followed by the filled-in values 2+b, 3+b,
5+b, 6+b and two zeros (15 entries), and a new column of two leading zeros
followed by the sorted biased run with gaps filled, where b = 2^15. -/
theorem C9_fill_offsets :
    fill_offsets_missing_values FE.representative
        ⟨[1, 4, 7, 1, 4, 7, 1, 4, 7], 3⟩ [0, 1, 2] =
      ([1 + 2 ^ 15, 4 + 2 ^ 15, 7 + 2 ^ 15, 1 + 2 ^ 15, 4 + 2 ^ 15, 7 + 2 ^ 15,
        1 + 2 ^ 15, 4 + 2 ^ 15, 7 + 2 ^ 15, 2 + 2 ^ 15, 3 + 2 ^ 15, 5 + 2 ^ 15,
        6 + 2 ^ 15, 0, 0],
       [0, 0, 1 + 2 ^ 15, 1 + 2 ^ 15, 1 + 2 ^ 15, 2 + 2 ^ 15, 3 + 2 ^ 15,
        4 + 2 ^ 15, 4 + 2 ^ 15, 4 + 2 ^ 15, 5 + 2 ^ 15, 6 + 2 ^ 15, 7 + 2 ^ 15,
        7 + 2 ^ 15, 7 + 2 ^ 15]) := by
  decide

theorem enumFrom_foldl_prod {F : Type} [CommRing F] (z alpha : F) :
    ∀ (l : List F) (k : ℕ) (init : F),
      (l.enumFrom k).foldl
          (fun acc iv => acc * (z - (((iv.1 + 1 : ℕ) : F) + alpha * iv.2))) init =
        init * ∏ i ∈ Finset.range l.length,
          (z - (((k + i + 1 : ℕ) : F) + alpha * l.getD i 0)) := by
  intro l
  induction l with
  | nil => intro k init; simp
  | cons a l ih =>
    intro k init
    show (l.enumFrom (k + 1)).foldl _ (init * (z - (((k + 1 : ℕ) : F) + alpha * a))) = _
    rw [ih (k + 1)]
    rw [List.length_cons, Finset.prod_range_succ']
    have hgd : ∀ i : ℕ, (a :: l).getD (i + 1) 0 = l.getD i 0 := fun i => rfl
    have hprod : ∀ i ∈ Finset.range l.length,
        (z - (((k + 1 + i + 1 : ℕ) : F) + alpha * l.getD i 0)) =
          (z - (((k + (i + 1) + 1 : ℕ) : F) + alpha * (a :: l).getD (i + 1) 0)) := by
      intro i _
      rw [hgd]
      congr 3
      omega
    rw [Finset.prod_congr rfl hprod]
    show _ * _ = init * (_ * (z - (((k + 0 + 1 : ℕ) : F) + alpha * (a :: l).getD 0 0)))
    have h0 : ((k + 0 + 1 : ℕ) : F) = ((k + 1 : ℕ) : F) := by norm_num
    rw [h0]
    show _ = init * (_ * (z - (((k + 1 : ℕ) : F) + alpha * a)))
    ring

/-- Claim C4: boundary_constraints returns exactly five constraints, in order:
column 19 row 0 pinned to pc_init, column 17 row 0 pinned to ap_init, column 19
row num_steps − 1 pinned to pc_final, column 17 row num_steps − 1 pinned to
ap_final, and column 45 row trace_length − 1 pinned to
z^P times the inverse of the product over i < P of (z − ((i+1) + alpha
program[i])). -/
theorem C4_boundary_constraints {F : Type} [Field F] (opts : ProofOptions)
    (ps ns : ℕ) (ch : CairoRAPChallenges F) (pub : PublicInputs F) :
    ((CairoAIR.new opts ps ns).boundary_constraints ch pub).constraints =
      [⟨19, 0, pub.pc_init⟩, ⟨17, 0, pub.ap_init⟩,
       ⟨19, ns - 1, pub.pc_final⟩, ⟨17, ns - 1, pub.ap_final⟩,
       ⟨45, (CairoAIR.new opts ps ns).context.trace_length - 1,
         ch.z ^ pub.program.length *
           (∏ i ∈ Finset.range pub.program.length,
             (ch.z - (((i + 1 : ℕ) : F) + ch.alpha * pub.program.getD i 0)))⁻¹⟩] := by
  show [(⟨MEM_A_TRACE_OFFSET, 0, pub.pc_init⟩ : BoundaryConstraint F),
      ⟨MEM_P_TRACE_OFFSET, 0, pub.ap_init⟩,
      ⟨MEM_A_TRACE_OFFSET, (CairoAIR.new opts ps ns).number_steps - 1, pub.pc_final⟩,
      ⟨MEM_P_TRACE_OFFSET, (CairoAIR.new opts ps ns).number_steps - 1, pub.ap_final⟩,
      ⟨PERMUTATION_ARGUMENT_COL_3, (CairoAIR.new opts ps ns).context.trace_length - 1,
        ch.z ^ pub.program.length /
          pub.program.enum.foldl
            (fun acc iv =>
              acc * (ch.z - (((iv.1 + 1 : ℕ) : F) + ch.alpha * iv.2))) 1⟩] = _
  have hfold : pub.program.enum.foldl
      (fun acc iv => acc * (ch.z - (((iv.1 + 1 : ℕ) : F) + ch.alpha * iv.2))) 1 =
      ∏ i ∈ Finset.range pub.program.length,
        (ch.z - (((i + 1 : ℕ) : F) + ch.alpha * pub.program.getD i 0)) := by
    show (pub.program.enumFrom 0).foldl _ 1 = _
    rw [enumFrom_foldl_prod]
    rw [one_mul]
    refine Finset.prod_congr rfl ?_
    intro i _
    congr 3
    omega
  rw [hfold, div_eq_mul_inv]
  rfl

/-- Claim C5: the AirContext built by CairoAIR::new has 43 transition
constraints, offsets [0, 1], 46 trace columns, degree 2 everywhere except
degree 1 at constraint 15, and exemption 1 for constraints 0 through 30 and for
34, 38 and 42, exemption 0 elsewhere. -/
theorem C5_air_context (opts : ProofOptions) (ps ns : ℕ) :
    (CairoAIR.new opts ps ns).context.num_transition_constraints = 43 ∧
      (CairoAIR.new opts ps ns).context.transition_offsets = [0, 1] ∧
      (CairoAIR.new opts ps ns).context.trace_columns = 46 ∧
      (CairoAIR.new opts ps ns).context.transition_degrees =
        (List.range 43).map (fun i => if i = 15 then 1 else 2) ∧
      (CairoAIR.new opts ps ns).context.transition_exemptions =
        (List.range 43).map
          (fun i => if i ≤ 30 ∨ i = 34 ∨ i = 38 ∨ i = 42 then 1 else 0) := by
  refine ⟨rfl, rfl, rfl, ?_, ?_⟩ <;> simp only [CairoAIR.new] <;> decide

end Cairo
